import Mathlib

/-!
Verification of the stream / connection-pool layer of the sofa-mosn proxy.

The Go sources are embedded shallowly: pure logic becomes Lean functions and
stateful methods become explicit state-passing functions.  Go uint64
arithmetic is Nat with an explicit wrap at 2 ^ 64; go-metrics int64 counters
are Int (every modelled operation moves them by at most 1, far from the
int64 wrap boundary, so plain Int addition coincides with atomic.AddInt64
on all reachable values).  Clients, streams and listeners are identified by
Nat ids, standing for the pointer identities the Go code compares with ==.
-/

namespace HttpConnPool

/-- Number of values of a Go uint64. -/
def U64 : Nat := 2 ^ 64

/-- Go uint64 increment, as in totalClientCount++. -/
def inc64 (x : Nat) : Nat := (x + 1) % U64

/-- Go uint64 decrement, as in totalClientCount--, wrapping at zero. -/
def dec64 (x : Nat) : Nat := (x + U64 - 1) % U64

/-- The go-metrics counters of types.HostStats / types.ClusterStats that
connpool.go touches (both stat blocks expose the same counter names, see
pkg/upstream/cluster/stats.go). -/
structure Stats where
  upstreamRequestPendingOverflow : Int
  upstreamRequestTotal : Int
  upstreamRequestActive : Int
  upstreamRequestTimeout : Int
  upstreamConnectionConFail : Int
  upstreamConnectionTotal : Int
  upstreamConnectionActive : Int
  upstreamConnectionLocalCloseWithActiveRequest : Int
  upstreamConnectionRemoteCloseWithActiveRequest : Int
  upstreamRequestFailureEject : Int
  upstreamRequestLocalReset : Int
  upstreamRequestRemoteReset : Int
deriving DecidableEq

def Stats.incPendingOverflow (s : Stats) : Stats :=
  { s with upstreamRequestPendingOverflow := s.upstreamRequestPendingOverflow + 1 }

def Stats.incRequestTotal (s : Stats) : Stats :=
  { s with upstreamRequestTotal := s.upstreamRequestTotal + 1 }

def Stats.incRequestActive (s : Stats) : Stats :=
  { s with upstreamRequestActive := s.upstreamRequestActive + 1 }

def Stats.decRequestActive (s : Stats) : Stats :=
  { s with upstreamRequestActive := s.upstreamRequestActive - 1 }

def Stats.incRequestTimeout (s : Stats) : Stats :=
  { s with upstreamRequestTimeout := s.upstreamRequestTimeout + 1 }

def Stats.incConFail (s : Stats) : Stats :=
  { s with upstreamConnectionConFail := s.upstreamConnectionConFail + 1 }

def Stats.incConnTotal (s : Stats) : Stats :=
  { s with upstreamConnectionTotal := s.upstreamConnectionTotal + 1 }

def Stats.incConnActive (s : Stats) : Stats :=
  { s with upstreamConnectionActive := s.upstreamConnectionActive + 1 }

def Stats.incLocalCloseActive (s : Stats) : Stats :=
  { s with upstreamConnectionLocalCloseWithActiveRequest :=
      s.upstreamConnectionLocalCloseWithActiveRequest + 1 }

def Stats.incRemoteCloseActive (s : Stats) : Stats :=
  { s with upstreamConnectionRemoteCloseWithActiveRequest :=
      s.upstreamConnectionRemoteCloseWithActiveRequest + 1 }

def Stats.incFailureEject (s : Stats) : Stats :=
  { s with upstreamRequestFailureEject := s.upstreamRequestFailureEject + 1 }

def Stats.incLocalReset (s : Stats) : Stats :=
  { s with upstreamRequestLocalReset := s.upstreamRequestLocalReset + 1 }

def Stats.incRemoteReset (s : Stats) : Stats :=
  { s with upstreamRequestRemoteReset := s.upstreamRequestRemoteReset + 1 }

/-- types.PoolFailureReason values used by connpool.go (the Go empty-string
reason, meaning no failure, is represented by Option.none at use sites). -/
inductive PoolFailureReason
  | overflow
  | connectionFailure
deriving DecidableEq

/-- Notifications delivered to the types.PoolEventListener argument of
connPool.NewStream. -/
inductive PoolEvent
  | onFailure (reason : PoolFailureReason)
  | onReady (client : Nat)
deriving DecidableEq

/-- Modelled from the spec: types.ConnectionEvent (package types is not
under src; the constructors are the events connpool.go and the stream file
mention, plus the read-error close the spec groups under any close event).
IsClose covers the close events, ConnectFailure the connect failures. -/
inductive ConnectionEvent
  | remoteClose
  | localClose
  | onReadErrClose
  | connected
  | connectTimeout
  | connectFailed
deriving DecidableEq

def ConnectionEvent.isClose : ConnectionEvent → Bool
  | .remoteClose => true
  | .localClose => true
  | .onReadErrClose => true
  | _ => false

def ConnectionEvent.connectFailure : ConnectionEvent → Bool
  | .connectTimeout => true
  | .connectFailed => true
  | _ => false

/-- State of one HTTP connection pool (struct connPool) together with the
per-client flags of its activeClient records and the stat blocks it
updates.  availableClients holds client ids, the top of the free list at
the end of the list, exactly as the Go slice is used.  requestsCount is the
current value of the per-cluster requests resource manager. -/
structure PoolState where
  availableClients : List Nat
  totalClientCount : Nat
  closed : Nat → Bool
  closeWithActiveReq : Nat → Bool
  hostStats : Stats
  clusterStats : Stats
  requestsCount : Nat

/-- Embeds newActiveClient.  Connection establishment is decided by the
oracle connectOk (ac.host.Connection.Connect); the identity of the freshly
allocated client is the oracle fresh.  A fresh Go struct starts with both
bool flags false. -/
def newActiveClient (fresh : Nat) (connectOk : Bool) (st : PoolState) :
    PoolState × Option Nat × Option PoolFailureReason :=
  if connectOk then
    ({ st with
        closed := fun x => if x = fresh then false else st.closed x,
        closeWithActiveReq := fun x => if x = fresh then false else st.closeWithActiveReq x,
        hostStats := (st.hostStats.incConnTotal).incConnActive,
        clusterStats := (st.clusterStats.incConnTotal).incConnActive },
      some fresh, none)
  else
    (st, none, some .connectionFailure)

/-- Embeds connPool.getAvailableClient.  maxConns is the value of
ResourceManager().Connections().Max(). -/
def getAvailableClient (maxConns fresh : Nat) (connectOk : Bool) (st : PoolState) :
    PoolState × Option Nat × Option PoolFailureReason :=
  if st.availableClients.length = 0 then
    if st.totalClientCount < maxConns then
      newActiveClient fresh connectOk
        { st with totalClientCount := inc64 st.totalClientCount }
    else
      ({ st with
          hostStats := st.hostStats.incPendingOverflow,
          clusterStats := st.clusterStats.incPendingOverflow },
        none, some .overflow)
  else
    ({ st with availableClients := st.availableClients.dropLast },
      st.availableClients.getLast?, none)

/-- Embeds connPool.NewStream.  canCreate is the value of
ResourceManager().Requests().CanCreate(); the returned list holds the
notifications delivered to the pool event listener. -/
def newStream (maxConns fresh : Nat) (connectOk canCreate : Bool) (st : PoolState) :
    PoolState × List PoolEvent :=
  match getAvailableClient maxConns fresh connectOk st with
  | (st1, none, reason) =>
      (st1, [.onFailure (reason.getD .connectionFailure)])
  | (st1, some c, _) =>
      if canCreate then
        ({ st1 with
            hostStats := (st1.hostStats.incRequestTotal).incRequestActive,
            clusterStats := (st1.clusterStats.incRequestTotal).incRequestActive,
            requestsCount := st1.requestsCount + 1 },
          [.onReady c])
      else
        ({ st1 with
            hostStats := st1.hostStats.incPendingOverflow,
            clusterStats := st1.clusterStats.incPendingOverflow },
          [.onFailure .overflow])

/-- The close-with-active-request attribution counters at the head of the
close branch of connPool.onConnectionEvent. -/
def closeStatsUpdate (client : Nat) (event : ConnectionEvent) (st : PoolState) :
    PoolState :=
  if st.closeWithActiveReq client then
    if event = .localClose then
      { st with
          hostStats := st.hostStats.incLocalCloseActive,
          clusterStats := st.clusterStats.incLocalCloseActive }
    else if event = .remoteClose then
      { st with
          hostStats := st.hostStats.incRemoteCloseActive,
          clusterStats := st.clusterStats.incRemoteCloseActive }
    else st
  else st

/-- Embeds connPool.onConnectionEvent.  The Go removal loop erases the first
slice entry pointer-equal to the client, which is List.erase on ids. -/
def onConnectionEvent (client : Nat) (event : ConnectionEvent) (st : PoolState) :
    PoolState :=
  if event.isClose then
    let st1 := closeStatsUpdate client event st
    { st1 with
        totalClientCount := dec64 st1.totalClientCount,
        availableClients := st1.availableClients.erase client,
        closed := fun x => if x = client then true else st1.closed x }
  else if event = .connectTimeout then
    { st with
        hostStats := st.hostStats.incRequestTimeout,
        clusterStats := st.clusterStats.incRequestTimeout }
  else if event = .connectFailed then
    { st with
        hostStats := st.hostStats.incConFail,
        clusterStats := st.clusterStats.incConFail }
  else st

/-- Embeds connPool.onStreamDestroy.  The requests resource manager
decrement is modelled on requestsCount. -/
def onStreamDestroy (client : Nat) (st : PoolState) : PoolState :=
  let st1 :=
    { st with
        hostStats := st.hostStats.decRequestActive,
        clusterStats := st.clusterStats.decRequestActive,
        requestsCount := st.requestsCount - 1 }
  if st1.closed client then st1
  else { st1 with availableClients := st1.availableClients ++ [client] }

/-- Embeds connPool.onStreamReset. -/
def onStreamReset (client : Nat) (connectionScoped localReset remoteReset : Bool)
    (st : PoolState) : PoolState :=
  if connectionScoped then
    { st with
        hostStats := st.hostStats.incFailureEject,
        clusterStats := st.clusterStats.incFailureEject,
        closeWithActiveReq := fun x => if x = client then true else st.closeWithActiveReq x }
  else if localReset then
    { st with
        hostStats := st.hostStats.incLocalReset,
        clusterStats := st.clusterStats.incLocalReset }
  else if remoteReset then
    { st with
        hostStats := st.hostStats.incRemoteReset,
        clusterStats := st.clusterStats.incRemoteReset }
  else st

/-- Embeds connPool.Close: it calls codecClient.Close() on every free-list
client and does not itself modify the pool fields (the resulting close
events arrive later through onConnectionEvent).  Returns the ids whose
codec close was requested. -/
def poolClose (st : PoolState) : PoolState × List Nat :=
  (st, st.availableClients)

/-- The pool-state invariant stated in the spec: the client count respects
the resource-manager ceiling, the free list holds only clients whose closed
flag is false, and no client is listed twice. -/
def poolInvariant (maxConns : Nat) (st : PoolState) : Prop :=
  st.totalClientCount ≤ maxConns ∧
  (∀ c ∈ st.availableClients, st.closed c = false) ∧
  st.availableClients.Nodup

end HttpConnPool

namespace HttpProtocolMatch

/-- Result of types protocol matching: nil / str.EAGAIN / str.FAILED. -/
inductive MatchResult
  | matched
  | eagain
  | failed
deriving DecidableEq

/-- len("GET"). -/
def minMethodLength : Nat := 3

/-- len("CONNECT"). -/
def maxMethodLength : Nat := 7

/-- The httpMethod set of the stream file. -/
def httpMethods : List String :=
  ["OPTIONS", "GET", "HEAD", "POST", "PUT", "DELETE", "TRACE", "CONNECT"]

/-- The lookup loop of streamConnFactory.ProtocolMatch, with the number of
remaining iterations made explicit so the recursion is structural: tries
the leading slice magic[0:i], then i + 1, while i ≤ size. -/
def methodLoopFuel (magic : List Char) (size : Nat) : Nat → Nat → Bool
  | 0, _ => false
  | fuel + 1, i =>
      if i ≤ size then
        if String.mk (magic.take i) ∈ httpMethods then true
        else methodLoopFuel magic size fuel (i + 1)
      else false

/-- The loop of streamConnFactory.ProtocolMatch from index i to size: the
loop runs at most size + 1 - i times. -/
def methodLoop (magic : List Char) (i size : Nat) : Bool :=
  methodLoopFuel magic size (size + 1 - i) i

/-- Embeds streamConnFactory.ProtocolMatch (the prot argument is unused in
the Go body). -/
def protocolMatch (magic : List Char) : MatchResult :=
  if magic.length < minMethodLength then .eagain
  else
    let size := if magic.length > maxMethodLength then maxMethodLength else magic.length
    if methodLoop magic minMethodLength size then .matched
    else if size < maxMethodLength then .eagain
    else .failed

end HttpProtocolMatch

namespace HttpStreamConn

open HttpConnPool (ConnectionEvent)

/-- The error value errConnClose of the stream file. -/
def errConnClose : String := "connection closed"

/-- A types.IoBuffer as the byte sequence it currently holds; Drain drops
the first n bytes. -/
structure IoBuf where
  bytes : List Nat
deriving DecidableEq

def IoBuf.len (b : IoBuf) : Nat := b.bytes.length

def IoBuf.drain (b : IoBuf) (n : Nat) : IoBuf := ⟨b.bytes.drop n⟩

/-- The two outcomes of receiving on the rendezvous channel bufChan: the
channel was closed, or a buffer arrived. -/
inductive BufChanRecv
  | chanClosed
  | received (b : IoBuf)

/-- Outcome of one streamConnection.Read call: the returned byte count and
error, the bytes copied into p, the buffer left for the dispatcher (none
when the channel was closed), and whether the nil sentinel was sent back. -/
structure ReadOutcome where
  n : Nat
  err : Option String
  copied : List Nat
  buf : Option IoBuf
  sentinelSent : Bool
deriving DecidableEq

/-- Embeds streamConnection.Read.  plen is len(p); copy gives
min plen (data.Len()) and Drain removes exactly that many bytes. -/
def streamConnectionRead (plen : Nat) (recv : BufChanRecv) : ReadOutcome :=
  match recv with
  | .chanClosed => ⟨0, some errConnClose, [], none, false⟩
  | .received b =>
      let n := min plen b.len
      ⟨n, none, b.bytes.take n, some (b.drain n), true⟩

/-- Embeds streamConnection.OnEvent: whether the event makes it close the
buffer channel. -/
def onEventClosesBufChan (e : ConnectionEvent) : Bool :=
  e.isClose || e.connectFailure

end HttpStreamConn

namespace HttpServerStream

/-- The view of a fasthttp request header that serverStream.endStream
reads: the explicit Connection close flag and the protocol version. -/
structure RequestHeaderView where
  connectionClose : Bool
  isHTTP11 : Bool
deriving DecidableEq

/-- The view of the fasthttp response that endStream writes: the
connection-close marker (SetConnectionClose) and the Connection header set
via SetCanonical. -/
structure ResponseView where
  connectionCloseSet : Bool
  connectionHeader : Option String
deriving DecidableEq

/-- Embeds the header rules of serverStream.endStream.  Returns the
response as sent and whether the transport connection is closed after the
response is written (the resetConn path, conn.Close after doSend). -/
def serverEndStream (req : RequestHeaderView) (resp : ResponseView) :
    ResponseView × Bool :=
  if req.connectionClose then
    ({ resp with connectionCloseSet := true }, true)
  else if ¬ req.isHTTP11 then
    ({ resp with connectionHeader := some "keep-alive" }, false)
  else
    (resp, false)

end HttpServerStream

namespace HttpClientServe

/-- types.StreamResetReason values the stream file mentions. -/
inductive StreamResetReason
  | streamConnectionTermination
  | streamConnectionFailed
  | streamLocalReset
  | streamRemoteReset
deriving DecidableEq

/-- Embeds stream.ResetStream: the OnResetStream notifications sent to the
registered event listeners (connection-scoped reasons are skipped there and
handled in the serve goroutine instead). -/
def resetStreamEvents (reason : StreamResetReason) (listeners : List Nat) :
    List (Nat × StreamResetReason) :=
  if reason ≠ .streamConnectionFailed ∧ reason ≠ .streamConnectionTermination then
    listeners.map (fun l => (l, reason))
  else []

/-- The per-iteration view of the current stream of a
clientStreamConnection: its registered event listeners and its
readDisableCount. -/
structure CurStream where
  listeners : List Nat
  readDisableCount : Int
deriving DecidableEq

/-- Outcome of the blocking fasthttp response.Read in the serve loop. -/
inductive DecodeOutcome
  | decodeErr
  | decodeOk (connectionClose : Bool)
deriving DecidableEq

/-- Outcome of one iteration of clientStreamConnection.serve: the loop
either returns (exit, carrying the reset notifications it emitted, and for
the close-directive path whether the response was handled first) or loops
again. -/
inductive ServeStep
  | exit (resetEvents : List (Nat × StreamResetReason))
  | exitAfterClose (handled : Bool)
  | loopAgain (handled : Bool)
deriving DecidableEq

/-- Embeds one iteration of clientStreamConnection.serve. -/
def clientServeStep (d : DecodeOutcome) (cur : Option CurStream) : ServeStep :=
  match d with
  | .decodeErr =>
      match cur with
      | some s => .exit (resetStreamEvents .streamRemoteReset s.listeners)
      | none => .exit []
  | .decodeOk close =>
      match cur with
      | some s =>
          let handled := decide (s.readDisableCount ≤ 0)
          if close then .exitAfterClose handled
          else .loopAgain handled
      | none => .loopAgain false

end HttpClientServe

namespace HttpStreamListeners

/-- Embeds the search loop of stream.RemoveEventListener.  In the Go source
the range variable shadows the method argument, so the comparison
streamCb == streamCb is a self-comparison; the translation keeps that test
verbatim. -/
def findCbIdx : List Nat → Option Nat
  | [] => none
  | streamCb :: rest =>
      if streamCb = streamCb then some 0
      else (findCbIdx rest).map (fun i => i + 1)

/-- Embeds stream.RemoveEventListener: find cbIdx with the loop above, then
splice the slice around it.  The streamCb argument is the listener the
caller asked to remove; as in the Go body it is never consulted. -/
def removeEventListener (streamCbs : List Nat) (streamCb : Nat) : List Nat :=
  match findCbIdx streamCbs with
  | some i => streamCbs.take i ++ streamCbs.drop (i + 1)
  | none => streamCbs

end HttpStreamListeners

namespace MetricsTransfer

/-- A single go-metrics object: a counter holds a count, a gauge a value, a
histogram its sample values in insertion order. -/
inductive MetricVal
  | counter (count : Int)
  | gauge (value : Int)
  | histogram (samples : List Int)
deriving DecidableEq

/-- One types.Metrics instance of the registry: its type, its labels, and
its keyed metrics in creation order. -/
structure MetricsStat where
  statType : String
  labels : List (String × String)
  data : List (String × MetricVal)
deriving DecidableEq

/-- Modelled from the spec: the process-wide metrics registry (package
pkg/metrics GetAll / NewMetrics is not under src).  GetAll lists the
instances; NewMetrics returns the instance matching type and labels,
creating an empty one if absent. -/
abbrev MetricsRegistry := List MetricsStat

/-- A TransferData record of part_001. -/
structure TransferData where
  metricsType : String
  metricsKey : String
  metricsValues : List Int
deriving DecidableEq

/-- A TransferStats record of part_001. -/
structure TransferStats where
  statType : String
  labels : List (String × String)
  data : List TransferData
deriving DecidableEq

def metricsCounter : String := "counter"
def metricsGauge : String := "gauge"
def metricsHistogram : String := "histogram"

/-- Embeds the Each callback body of makesTransferData on one keyed
metric. -/
def encodeMetric (kv : String × MetricVal) : TransferData :=
  match kv.2 with
  | .counter c => ⟨metricsCounter, kv.1, [c]⟩
  | .gauge g => ⟨metricsGauge, kv.1, [g]⟩
  | .histogram s => ⟨metricsHistogram, kv.1, s⟩

/-- Embeds makesTransferData up to gob encoding: the TransferStats list
that is gob-encoded onto the wire (gob decode of a gob encode of a
registered type is the identity, so the byte stage is dropped). -/
def makesTransferData (reg : MetricsRegistry) : List TransferStats :=
  reg.map (fun m => ⟨m.statType, m.labels, m.data.map encodeMetric⟩)

/-- First value of a record, as the Go indexing MetricsValues[0]
(makesTransferData always emits at least one value for counters and
gauges). -/
def firstValue (vs : List Int) : Int := vs.headD 0

/-- Lookup of a keyed metric inside one instance. -/
def findVal (data : List (String × MetricVal)) (key : String) : Option MetricVal :=
  (data.find? (fun p => p.1 = key)).map Prod.snd

/-- Replace the value stored at a key. -/
def setVal (data : List (String × MetricVal)) (key : String) (v : MetricVal) :
    List (String × MetricVal) :=
  data.map (fun p => if p.1 = key then (key, v) else p)

/-- Modelled from the spec together with the switch of readTransferData:
applying one TransferData record to one instance.  Counter(key) gets or
creates a counter starting at zero and Inc adds the transferred count;
Gauge(key).Update sets the transferred value; Histogram(key) gets or
creates the histogram and Update appends each sample in order.  A record
whose type tag matches an existing metric of a different kind leaves the
data unchanged (unreachable from makesTransferData output). -/
def applyTransferData (data : List (String × MetricVal)) (td : TransferData) :
    List (String × MetricVal) :=
  if td.metricsType = metricsCounter then
    match findVal data td.metricsKey with
    | some (.counter c) => setVal data td.metricsKey (.counter (c + firstValue td.metricsValues))
    | some _ => data
    | none => data ++ [(td.metricsKey, .counter (firstValue td.metricsValues))]
  else if td.metricsType = metricsGauge then
    match findVal data td.metricsKey with
    | some (.gauge _) => setVal data td.metricsKey (.gauge (firstValue td.metricsValues))
    | some _ => data
    | none => data ++ [(td.metricsKey, .gauge (firstValue td.metricsValues))]
  else if td.metricsType = metricsHistogram then
    match findVal data td.metricsKey with
    | some (.histogram s) => setVal data td.metricsKey (.histogram (s ++ td.metricsValues))
    | some _ => data
    | none => data ++ [(td.metricsKey, .histogram td.metricsValues)]
  else data

/-- Applying one TransferStats block: NewMetrics(type, labels) finds or
creates the instance, then every record is applied to it. -/
def applyTransferStats (reg : MetricsRegistry) (ts : TransferStats) : MetricsRegistry :=
  let reg1 :=
    if reg.any (fun m => m.statType = ts.statType ∧ m.labels = ts.labels) then reg
    else reg ++ [⟨ts.statType, ts.labels, []⟩]
  reg1.map (fun m =>
    if m.statType = ts.statType ∧ m.labels = ts.labels then
      { m with data := ts.data.foldl applyTransferData m.data }
    else m)

/-- Embeds readTransferData from the decoded TransferStats list, applied to
the receiving registry. -/
def readTransferData (transfers : List TransferStats) (reg : MetricsRegistry) :
    MetricsRegistry :=
  transfers.foldl applyTransferStats reg

/-- Well-formedness of a source registry: instance identities (type and
labels) are pairwise distinct, and inside each instance the metric keys are
pairwise distinct. -/
def registryWF (reg : MetricsRegistry) : Prop :=
  (reg.map (fun m => (m.statType, m.labels))).Nodup ∧
  ∀ m ∈ reg, (m.data.map Prod.fst).Nodup

end MetricsTransfer

namespace KeepAlive

/-- Modelled from the spec: the sofaRPCKeepAlive controller implementation
is not under src (only its tests are, in part_002).  State: the pending
probe request ids, the consecutive-timeout counter, and the stopped flag. -/
structure KeepAliveState where
  pending : List Nat
  timeoutCount : Nat
  stopped : Bool
deriving DecidableEq

/-- Statuses reported to the registered callbacks. -/
inductive KeepAliveStatus
  | success
  | timeout
deriving DecidableEq

/-- Modelled from the spec: a response matching a pending probe id cancels
the timer, removes the entry, resets timeoutCount to zero and reports
Success; a response for an unknown id (the timer already removed it) does
nothing. -/
def keepAliveOnResponse (st : KeepAliveState) (id : Nat) :
    KeepAliveState × List KeepAliveStatus :=
  if id ∈ st.pending then
    ({ st with pending := st.pending.erase id, timeoutCount := 0 }, [.success])
  else (st, [])

/-- Modelled from the spec: a probe timer firing before the response
removes the entry, increments timeoutCount and reports Timeout; when the
threshold is reached the codec is closed and the controller stops. -/
def keepAliveOnTimeout (threshold : Nat) (st : KeepAliveState) (id : Nat) :
    KeepAliveState × List KeepAliveStatus :=
  if id ∈ st.pending then
    let tc := st.timeoutCount + 1
    ({ st with
        pending := st.pending.erase id,
        timeoutCount := tc,
        stopped := st.stopped || decide (threshold ≤ tc) }, [.timeout])
  else (st, [])

end KeepAlive

namespace HttpStreamConn

/-- C5: when the buffer channel has been closed, streamConnection.Read
returns 0 bytes and the connection-closed error; otherwise, having received
a buffer b, it copies n = min(len p, b.Len()) bytes into p, drains exactly
n bytes from b, sends the sentinel back on the channel and returns n with a
nil error; and OnEvent closes the channel on any close or connect-failure
transport event. -/
theorem streamConnectionRead_spec :
    (∀ plen : Nat, streamConnectionRead plen .chanClosed =
      ⟨0, some errConnClose, [], none, false⟩) ∧
    (∀ (plen : Nat) (b : IoBuf), streamConnectionRead plen (.received b) =
      ⟨min plen b.len, none, b.bytes.take (min plen b.len),
        some ⟨b.bytes.drop (min plen b.len)⟩, true⟩) ∧
    (∀ e : HttpConnPool.ConnectionEvent,
      e.isClose = true ∨ e.connectFailure = true →
        onEventClosesBufChan e = true) := by
  refine ⟨fun _ => rfl, fun _ _ => rfl, fun e h => ?_⟩
  cases e <;> simp_all [onEventClosesBufChan, HttpConnPool.ConnectionEvent.isClose,
    HttpConnPool.ConnectionEvent.connectFailure]

/-- Witness for C5 at a concrete event and a concrete read. -/
theorem streamConnectionRead_spec_witness :
    onEventClosesBufChan .remoteClose = true ∧
    streamConnectionRead 2 (.received ⟨[10, 11, 12]⟩) =
      ⟨2, none, [10, 11], some ⟨[12]⟩, true⟩ :=
  ⟨streamConnectionRead_spec.2.2 .remoteClose (Or.inl (by decide)),
    streamConnectionRead_spec.2.1 2 ⟨[10, 11, 12]⟩⟩

end HttpStreamConn

namespace HttpServerStream

/-- C6: serverStream.endStream applies exactly these connection-header
rules: an explicit Connection close on the request marks the response
connection-close and closes the transport after the response is written; a
non-HTTP/1.1 request without explicit close gets Connection keep-alive on
the response; an HTTP/1.1 request without explicit close leaves the
response Connection header untouched. -/
theorem serverEndStream_spec :
    (∀ (req : RequestHeaderView) (resp : ResponseView), req.connectionClose = true →
      serverEndStream req resp = ({ resp with connectionCloseSet := true }, true)) ∧
    (∀ (req : RequestHeaderView) (resp : ResponseView),
      req.connectionClose = false → req.isHTTP11 = false →
      serverEndStream req resp =
        ({ resp with connectionHeader := some "keep-alive" }, false)) ∧
    (∀ (req : RequestHeaderView) (resp : ResponseView),
      req.connectionClose = false → req.isHTTP11 = true →
      serverEndStream req resp = (resp, false)) := by
  refine ⟨?_, ?_, ?_⟩ <;> intro req resp <;> intros <;> simp_all [serverEndStream]

/-- Witness for C6 at concrete headers: all three rule branches. -/
theorem serverEndStream_spec_witness :
    serverEndStream ⟨true, true⟩ ⟨false, none⟩ = (⟨true, none⟩, true) ∧
    serverEndStream ⟨false, false⟩ ⟨false, none⟩ =
      (⟨false, some "keep-alive"⟩, false) ∧
    serverEndStream ⟨false, true⟩ ⟨false, none⟩ = (⟨false, none⟩, false) :=
  ⟨serverEndStream_spec.1 ⟨true, true⟩ ⟨false, none⟩ rfl,
    serverEndStream_spec.2.1 ⟨false, false⟩ ⟨false, none⟩ rfl rfl,
    serverEndStream_spec.2.2 ⟨false, true⟩ ⟨false, none⟩ rfl rfl⟩

end HttpServerStream

namespace HttpClientServe

/-- C7: when the blocking response decode fails in
clientStreamConnection.serve, the current stream (if any) is reset with
reason StreamRemoteReset, every one of its registered event listeners
receiving OnResetStream with that reason, and the parser loop exits. -/
theorem clientServe_decode_error_resets_and_exits :
    (∀ s : CurStream, clientServeStep .decodeErr (some s) =
      .exit (s.listeners.map (fun l => (l, .streamRemoteReset)))) ∧
    clientServeStep .decodeErr none = .exit [] := by
  refine ⟨fun s => ?_, rfl⟩
  simp [clientServeStep, resetStreamEvents]

end HttpClientServe

namespace KeepAlive

/-- C9: a single successful probe, a response matching a pending probe id,
resets timeoutCount to zero whatever its previous value, and reports
Success to the callbacks. -/
theorem keepAlive_success_resets_timeoutCount
    (st : KeepAliveState) (id : Nat) (h : id ∈ st.pending) :
    (keepAliveOnResponse st id).1.timeoutCount = 0 ∧
    (keepAliveOnResponse st id).2 = [.success] := by
  simp [keepAliveOnResponse, h]

/-- Witness for C9: five consecutive timeouts have accumulated, then one
matching response resets the counter. -/
theorem keepAlive_success_resets_timeoutCount_witness :
    (keepAliveOnResponse ⟨[7], 5, false⟩ 7).1.timeoutCount = 0 ∧
    (keepAliveOnResponse ⟨[7], 5, false⟩ 7).2 = [.success] :=
  keepAlive_success_resets_timeoutCount ⟨[7], 5, false⟩ 7 (by decide)

end KeepAlive

namespace HttpStreamListeners

/-- C10 (failing-input evaluation): on the listener list [0, 1], asking to
remove listener 1 removes listener 0 instead, because the Go loop variable
shadows the argument and the removal test compares it with itself. -/
theorem removeEventListener_removes_first_listener :
    removeEventListener [0, 1] 1 = [1] ∧ removeEventListener [0, 1] 1 ≠ [0] := by
  decide

end HttpStreamListeners

namespace HttpProtocolMatch

theorem methodLoopFuel_spec (magic : List Char) (size : Nat) :
    ∀ fuel i, size + 1 - i = fuel →
      (methodLoopFuel magic size fuel i = true ↔
        ∃ j, i ≤ j ∧ j ≤ size ∧ String.mk (magic.take j) ∈ httpMethods) := by
  intro fuel
  induction fuel with
  | zero =>
      intro i hi
      have hgt : ¬ i ≤ size := by omega
      simp only [methodLoopFuel]
      constructor
      · intro hfalse
        exact absurd hfalse (by decide)
      · rintro ⟨j, h1, h2, -⟩
        exact absurd (h1.trans h2) hgt
  | succ n ih =>
      intro i hi
      have h : i ≤ size := by omega
      rw [methodLoopFuel, if_pos h]
      by_cases hm : String.mk (magic.take i) ∈ httpMethods
      · rw [if_pos hm]
        exact ⟨fun _ => ⟨i, le_refl i, h, hm⟩, fun _ => rfl⟩
      · rw [if_neg hm, ih (i + 1) (by omega)]
        constructor
        · rintro ⟨j, h1, h2, h3⟩
          exact ⟨j, by omega, h2, h3⟩
        · rintro ⟨j, h1, h2, h3⟩
          refine ⟨j, ?_, h2, h3⟩
          rcases Nat.eq_or_lt_of_le h1 with rfl | hlt
          · exact absurd h3 hm
          · omega

theorem methodLoop_spec (magic : List Char) (i size : Nat) :
    methodLoop magic i size = true ↔
      ∃ j, i ≤ j ∧ j ≤ size ∧ String.mk (magic.take j) ∈ httpMethods :=
  methodLoopFuel_spec magic size (size + 1 - i) i rfl

theorem protocolMatch_matched_of (magic : List Char) (j : Nat)
    (h3 : 3 ≤ j) (h7 : j ≤ 7) (hlen : j ≤ magic.length)
    (hm : String.mk (magic.take j) ∈ httpMethods) :
    protocolMatch magic = .matched := by
  have hge : ¬ magic.length < minMethodLength := by
    unfold minMethodLength
    omega
  have hsize :
      j ≤ (if magic.length > maxMethodLength then maxMethodLength else magic.length) := by
    unfold maxMethodLength
    split <;> omega
  have hloop :
      methodLoop magic minMethodLength
        (if magic.length > maxMethodLength then maxMethodLength else magic.length) = true :=
    (methodLoop_spec _ _ _).mpr ⟨j, by unfold minMethodLength; omega, hsize, hm⟩
  simp only [protocolMatch]
  rw [if_neg hge, if_pos hloop]

/-- Every method string has between 3 and 7 characters. -/
theorem method_len (m : String) (hm : m ∈ httpMethods) :
    3 ≤ m.data.length ∧ m.data.length ≤ 7 := by
  simp only [httpMethods, List.mem_cons, List.not_mem_nil, or_false] at hm
  rcases hm with rfl | rfl | rfl | rfl | rfl | rfl | rfl | rfl <;> decide

theorem method_append_matched (m : String) (hm : m ∈ httpMethods)
    (rest : List Char) :
    protocolMatch (m.data ++ rest) = .matched := by
  obtain ⟨h3, h7⟩ := method_len m hm
  apply protocolMatch_matched_of (m.data ++ rest) m.data.length h3 h7
  · simp
  · rw [List.take_left]
    exact hm

theorem protocolMatch_failed_implies (magic : List Char)
    (h : protocolMatch magic = .failed) :
    7 ≤ magic.length ∧ ∀ m ∈ httpMethods, ∀ rest : List Char,
      magic ≠ m.data ++ rest := by
  simp only [protocolMatch] at h
  by_cases hlt : magic.length < minMethodLength
  · rw [if_pos hlt] at h
    cases h
  · rw [if_neg hlt] at h
    by_cases hloop :
        methodLoop magic minMethodLength
          (if magic.length > maxMethodLength then maxMethodLength else magic.length) = true
    · rw [if_pos hloop] at h
      cases h
    · rw [if_neg hloop] at h
      by_cases hs :
          (if magic.length > maxMethodLength then maxMethodLength else magic.length) <
            maxMethodLength
      · rw [if_pos hs] at h
        cases h
      · have h7 : 7 ≤ magic.length := by
          unfold maxMethodLength at hs
          rcases Nat.lt_or_ge 7 magic.length with hgt | hle
          · omega
          · rw [if_neg (by omega)] at hs
            omega
        refine ⟨h7, fun m hmem rest heq => ?_⟩
        apply hloop
        obtain ⟨hm3, hm7⟩ := method_len m hmem
        refine (methodLoop_spec _ _ _).mpr ⟨m.data.length, ?_, ?_, ?_⟩
        · unfold minMethodLength
          omega
        · unfold maxMethodLength
          have : m.data.length ≤ magic.length := by
            rw [heq]
            simp
          split <;> omega
        · rw [heq, List.take_left]
          exact hmem

/-- C2: ProtocolMatch returns need-more for every input of fewer than 3
bytes; returns match for every input whose leading bytes spell one of the
eight HTTP methods; returns fail only when at least 7 bytes are present and
no method is a leading token; and on the concrete inputs GE, GET-space and
XYZZY!! it returns need-more, match and fail respectively. -/
theorem protocolMatch_spec :
    (∀ magic : List Char, magic.length < 3 → protocolMatch magic = .eagain) ∧
    (∀ m ∈ httpMethods, ∀ rest : List Char,
      protocolMatch (m.data ++ rest) = .matched) ∧
    (∀ magic : List Char, protocolMatch magic = .failed →
      7 ≤ magic.length ∧ ∀ m ∈ httpMethods, ∀ rest : List Char,
        magic ≠ m.data ++ rest) ∧
    protocolMatch "GE".data = .eagain ∧
    protocolMatch "GET ".data = .matched ∧
    protocolMatch "XYZZY!!".data = .failed := by
  refine ⟨?_, ?_, protocolMatch_failed_implies, by decide, by decide, by decide⟩
  · intro magic hlen
    simp only [protocolMatch]
    rw [if_pos (by unfold minMethodLength; omega)]
  · exact fun m hm rest => method_append_matched m hm rest

/-- Witness for C2 at concrete inputs: a short input, a method with a
tail, and the failure characterization applied to the 7-byte reject. -/
theorem protocolMatch_spec_witness :
    protocolMatch ['G'] = .eagain ∧
    protocolMatch ("GET".data ++ [' ']) = .matched ∧
    7 ≤ "XYZZY!!".data.length :=
  ⟨protocolMatch_spec.1 ['G'] (by decide),
    protocolMatch_spec.2.1 "GET" (by decide) [' '],
    (protocolMatch_spec.2.2.1 "XYZZY!!".data (by decide)).1⟩

end HttpProtocolMatch

namespace HttpConnPool

theorem inc64_eq_add_one {x : Nat} (h : x + 1 < U64) : inc64 x = x + 1 :=
  Nat.mod_eq_of_lt h

theorem dec64_eq_sub_one {x : Nat} (h0 : 0 < x) (h1 : x < U64) :
    dec64 x = x - 1 := by
  unfold dec64
  have hx : x + U64 - 1 = (x - 1) + U64 := by
    have : 0 < U64 := by decide
    omega
  rw [hx, Nat.add_mod_right]
  exact Nat.mod_eq_of_lt (by omega)

theorem closeStatsUpdate_fields (client : Nat) (event : ConnectionEvent)
    (st : PoolState) :
    (closeStatsUpdate client event st).availableClients = st.availableClients ∧
    (closeStatsUpdate client event st).totalClientCount = st.totalClientCount ∧
    (closeStatsUpdate client event st).closed = st.closed := by
  unfold closeStatsUpdate
  split
  · split
    · exact ⟨rfl, rfl, rfl⟩
    · split
      · exact ⟨rfl, rfl, rfl⟩
      · exact ⟨rfl, rfl, rfl⟩
  · exact ⟨rfl, rfl, rfl⟩

theorem getAvailableClient_inv (maxConns fresh : Nat) (connectOk : Bool)
    (st : PoolState) (hmax : maxConns < U64)
    (hinv : poolInvariant maxConns st) :
    poolInvariant maxConns (getAvailableClient maxConns fresh connectOk st).1 := by
  obtain ⟨hcount, hflags, hnodup⟩ := hinv
  unfold getAvailableClient
  by_cases hlen : st.availableClients.length = 0
  · have hnil : st.availableClients = [] := List.length_eq_zero.mp hlen
    rw [if_pos hlen]
    by_cases hlt : st.totalClientCount < maxConns
    · rw [if_pos hlt]
      have hinc : inc64 st.totalClientCount = st.totalClientCount + 1 :=
        inc64_eq_add_one (by omega)
      unfold newActiveClient
      cases connectOk
      · refine ⟨?_, ?_, ?_⟩ <;> simp [hnil, hinc] <;> omega
      · refine ⟨?_, ?_, ?_⟩ <;> simp [hnil, hinc] <;> omega
    · rw [if_neg hlt]
      exact ⟨hcount, hflags, hnodup⟩
  · rw [if_neg hlen]
    refine ⟨hcount, ?_, hnodup.sublist (List.dropLast_sublist _)⟩
    intro c hc
    exact hflags c ((List.dropLast_sublist _).subset hc)

theorem newStream_inv (maxConns fresh : Nat) (connectOk canCreate : Bool)
    (st : PoolState) (hmax : maxConns < U64)
    (hinv : poolInvariant maxConns st) :
    poolInvariant maxConns (newStream maxConns fresh connectOk canCreate st).1 := by
  have hget := getAvailableClient_inv maxConns fresh connectOk st hmax hinv
  unfold newStream
  rcases hg : getAvailableClient maxConns fresh connectOk st with ⟨st1, copt, reason⟩
  rw [hg] at hget
  cases copt with
  | none => exact hget
  | some c =>
      cases canCreate
      · exact hget
      · exact hget

theorem onStreamDestroy_inv (maxConns client : Nat) (st : PoolState)
    (hinv : poolInvariant maxConns st)
    (hnotin : client ∉ st.availableClients) :
    poolInvariant maxConns (onStreamDestroy client st) := by
  obtain ⟨hcount, hflags, hnodup⟩ := hinv
  unfold onStreamDestroy
  by_cases hcl : st.closed client = true
  · simp only [hcl, if_pos]
    exact ⟨hcount, hflags, hnodup⟩
  · have hcl' : st.closed client = false := by
      cases h : st.closed client
      · rfl
      · exact absurd h hcl
    simp only [hcl', Bool.false_eq_true, if_neg, not_false_iff]
    refine ⟨hcount, ?_, ?_⟩
    · intro c hc
      rcases List.mem_append.mp hc with hmem | hmem
      · exact hflags c hmem
      · rw [List.mem_singleton.mp hmem]
        exact hcl'
    · rw [List.nodup_append]
      refine ⟨hnodup, List.nodup_singleton client, ?_⟩
      intro a ha hamem
      rw [List.mem_singleton.mp hamem] at ha
      exact hnotin ha

theorem onConnectionEvent_inv (maxConns client : Nat)
    (event : ConnectionEvent) (st : PoolState) (hmax : maxConns < U64)
    (hinv : poolInvariant maxConns st)
    (hactive : event.isClose = true → 0 < st.totalClientCount) :
    poolInvariant maxConns (onConnectionEvent client event st) := by
  obtain ⟨hcount, hflags, hnodup⟩ := hinv
  unfold onConnectionEvent
  by_cases hic : event.isClose = true
  · rw [if_pos hic]
    obtain ⟨hl, hc, hcl⟩ := closeStatsUpdate_fields client event st
    refine ⟨?_, ?_, ?_⟩
    · show dec64 (closeStatsUpdate client event st).totalClientCount ≤ maxConns
      rw [hc, dec64_eq_sub_one (hactive hic) (by omega)]
      omega
    · intro c hcmem
      show (if c = client then true else (closeStatsUpdate client event st).closed c)
          = false
      have hcmem' : c ∈ st.availableClients.erase client := by
        have h0 : c ∈ (closeStatsUpdate client event st).availableClients.erase client :=
          hcmem
        rwa [hl] at h0
      have hne : c ≠ client := (hnodup.mem_erase_iff.mp hcmem').1
      have hmem : c ∈ st.availableClients := (hnodup.mem_erase_iff.mp hcmem').2
      rw [if_neg hne, hcl]
      exact hflags c hmem
    · show ((closeStatsUpdate client event st).availableClients.erase client).Nodup
      rw [hl]
      exact hnodup.erase client
  · rw [if_neg hic]
    by_cases ht : event = ConnectionEvent.connectTimeout
    · rw [if_pos ht]
      exact ⟨hcount, hflags, hnodup⟩
    · rw [if_neg ht]
      by_cases hf : event = ConnectionEvent.connectFailed
      · rw [if_pos hf]
        exact ⟨hcount, hflags, hnodup⟩
      · rw [if_neg hf]
        exact ⟨hcount, hflags, hnodup⟩

/-- C1: every pool operation preserves the pool-state invariant: NewStream
(and the getAvailableClient it runs), onStreamDestroy for an in-use client
(one not sitting in the free list), onConnectionEvent (a close event only
arriving while the client is still counted), and Close. -/
theorem pool_operations_preserve_invariant (maxConns : Nat)
    (hmax : maxConns < U64) (st : PoolState)
    (hinv : poolInvariant maxConns st) :
    (∀ (fresh : Nat) (connectOk canCreate : Bool),
      poolInvariant maxConns (newStream maxConns fresh connectOk canCreate st).1) ∧
    (∀ client : Nat, client ∉ st.availableClients →
      poolInvariant maxConns (onStreamDestroy client st)) ∧
    (∀ (client : Nat) (event : ConnectionEvent),
      (event.isClose = true → 0 < st.totalClientCount) →
      poolInvariant maxConns (onConnectionEvent client event st)) ∧
    poolInvariant maxConns (poolClose st).1 :=
  ⟨fun fresh connectOk canCreate =>
      newStream_inv maxConns fresh connectOk canCreate st hmax hinv,
    fun client hnotin => onStreamDestroy_inv maxConns client st hinv hnotin,
    fun client event hactive =>
      onConnectionEvent_inv maxConns client event st hmax hinv hactive,
    hinv⟩

/-- Zero-initialized stat block. -/
def statsZero : Stats := ⟨0, 0, 0, 0, 0, 0, 0, 0, 0, 0, 0, 0⟩

/-- A concrete pool state for witnesses: two free clients, three total. -/
def poolStateW : PoolState :=
  ⟨[1, 2], 3, fun _ => false, fun _ => false, statsZero, statsZero, 0⟩

/-- Witness for C1: the four operations applied to a concrete pool state. -/
theorem pool_operations_preserve_invariant_witness :
    poolInvariant 4 ((newStream 4 9 true true poolStateW).1) ∧
    poolInvariant 4 (onStreamDestroy 7 poolStateW) ∧
    poolInvariant 4 (onConnectionEvent 1 .remoteClose poolStateW) ∧
    poolInvariant 4 (poolClose poolStateW).1 := by
  have h := pool_operations_preserve_invariant 4 (by decide) poolStateW
    ⟨by decide, by decide, by decide⟩
  exact ⟨h.1 9 true true, h.2.1 7 (by decide),
    h.2.2.1 1 .remoteClose (fun _ => by decide), h.2.2.2⟩

/-- C3: NewStream with an empty free list and the client count at the
connection ceiling creates no client: the pool state is unchanged except
that the per-host and per-cluster UpstreamRequestPendingOverflow counters
are incremented, and the only listener notification is OnFailure with
reason Overflow. -/
theorem newStream_at_max_overflow (maxConns fresh : Nat)
    (connectOk canCreate : Bool) (st : PoolState)
    (hempty : st.availableClients = [])
    (hfull : maxConns ≤ st.totalClientCount) :
    newStream maxConns fresh connectOk canCreate st =
      ({ st with
          hostStats := st.hostStats.incPendingOverflow,
          clusterStats := st.clusterStats.incPendingOverflow },
        [.onFailure .overflow]) := by
  have h1 : st.availableClients.length = 0 := by rw [hempty]; rfl
  have h2 : ¬ st.totalClientCount < maxConns := by omega
  have hget : getAvailableClient maxConns fresh connectOk st =
      ({ st with
          hostStats := st.hostStats.incPendingOverflow,
          clusterStats := st.clusterStats.incPendingOverflow },
        none, some .overflow) := by
    unfold getAvailableClient
    rw [if_pos h1, if_neg h2]
  unfold newStream
  rw [hget]
  rfl

/-- Witness for C3 at a concrete saturated pool. -/
theorem newStream_at_max_overflow_witness :
    newStream 3 9 true true ⟨[], 3, fun _ => false, fun _ => false, statsZero, statsZero, 0⟩ =
      (⟨[], 3, fun _ => false, fun _ => false,
          statsZero.incPendingOverflow, statsZero.incPendingOverflow, 0⟩,
        [.onFailure .overflow]) :=
  newStream_at_max_overflow 3 9 true true _ rfl (by decide)

/-- C4: when a client has been popped from the free list but the requests
resource manager cannot admit the request (CanCreate false), NewStream
notifies OnFailure with reason Overflow and increments the per-host and
per-cluster UpstreamRequestPendingOverflow counters; the client stays
allocated (the client count and its closed flag are untouched), and a
subsequent onStreamDestroy for that client returns it to the free list. -/
theorem newStream_cannot_create_keeps_client (maxConns fresh : Nat)
    (connectOk : Bool) (st : PoolState) (c : Nat)
    (hobt : (getAvailableClient maxConns fresh connectOk st).2.1 = some c)
    (hnc : (getAvailableClient maxConns fresh connectOk st).1.closed c = false) :
    (newStream maxConns fresh connectOk false st).2 = [.onFailure .overflow] ∧
    (newStream maxConns fresh connectOk false st).1.hostStats.upstreamRequestPendingOverflow =
      (getAvailableClient maxConns fresh connectOk st).1.hostStats.upstreamRequestPendingOverflow + 1 ∧
    (newStream maxConns fresh connectOk false st).1.clusterStats.upstreamRequestPendingOverflow =
      (getAvailableClient maxConns fresh connectOk st).1.clusterStats.upstreamRequestPendingOverflow + 1 ∧
    (newStream maxConns fresh connectOk false st).1.totalClientCount =
      (getAvailableClient maxConns fresh connectOk st).1.totalClientCount ∧
    (newStream maxConns fresh connectOk false st).1.closed =
      (getAvailableClient maxConns fresh connectOk st).1.closed ∧
    c ∈ (onStreamDestroy c
          (newStream maxConns fresh connectOk false st).1).availableClients := by
  rcases hG : getAvailableClient maxConns fresh connectOk st with ⟨st1, copt, r⟩
  rw [hG] at hobt hnc
  simp only at hobt
  subst hobt
  unfold newStream
  rw [hG]
  refine ⟨rfl, rfl, rfl, rfl, rfl, ?_⟩
  unfold onStreamDestroy
  simp only at hnc
  simp [hnc]

/-- Witness for C4 at a concrete pool with one free client. -/
theorem newStream_cannot_create_keeps_client_witness :
    5 ∈ (onStreamDestroy 5
          (newStream 4 9 true false
            ⟨[5], 1, fun _ => false, fun _ => false, statsZero, statsZero, 0⟩).1).availableClients :=
  (newStream_cannot_create_keeps_client 4 9 true
    ⟨[5], 1, fun _ => false, fun _ => false, statsZero, statsZero, 0⟩
    5 rfl rfl).2.2.2.2.2

end HttpConnPool

namespace MetricsTransfer

theorem findVal_eq_none (data : List (String × MetricVal)) (k : String)
    (hk : k ∉ data.map Prod.fst) : findVal data k = none := by
  unfold findVal
  rw [List.find?_eq_none.mpr]
  · rfl
  · intro p hp
    simp only [decide_eq_true_eq]
    intro hpk
    exact hk (List.mem_map.mpr ⟨p, hp, hpk⟩)

theorem encode_apply (acc : List (String × MetricVal)) (k : String)
    (v : MetricVal) (hk : k ∉ acc.map Prod.fst) :
    applyTransferData acc (encodeMetric (k, v)) = acc ++ [(k, v)] := by
  have hfind := findVal_eq_none acc k hk
  cases v with
  | counter c =>
      simp [applyTransferData, encodeMetric, hfind, firstValue,
        metricsCounter, metricsGauge, metricsHistogram]
  | gauge g =>
      simp [applyTransferData, encodeMetric, hfind, firstValue,
        metricsCounter, metricsGauge, metricsHistogram]
  | histogram s =>
      simp [applyTransferData, encodeMetric, hfind, firstValue,
        metricsCounter, metricsGauge, metricsHistogram]

theorem fold_rebuild (src : List (String × MetricVal)) :
    ∀ acc : List (String × MetricVal),
      (src.map Prod.fst).Nodup →
      (∀ k ∈ src.map Prod.fst, k ∉ acc.map Prod.fst) →
      (src.map encodeMetric).foldl applyTransferData acc = acc ++ src := by
  induction src with
  | nil =>
      intro acc _ _
      simp
  | cons hd tl ih =>
      intro acc hnd hdisj
      obtain ⟨k, v⟩ := hd
      simp only [List.map_cons, List.foldl_cons]
      rw [encode_apply acc k v (hdisj k (by simp))]
      have hnd' : (tl.map Prod.fst).Nodup := by
        simp only [List.map_cons, List.nodup_cons] at hnd
        exact hnd.2
      have hknotin : k ∉ tl.map Prod.fst := by
        simp only [List.map_cons, List.nodup_cons] at hnd
        exact hnd.1
      rw [ih (acc ++ [(k, v)]) hnd' ?_]
      · simp
      · intro k' hk'
        simp only [List.map_append, List.mem_append, List.map_cons,
          List.mem_singleton, List.map_nil, List.mem_cons, List.not_mem_nil,
          or_false]
        rintro (hmem | rfl)
        · exact hdisj k' (by simp [hk']) hmem
        · exact hknotin hk'

theorem map_keep_of_not_match (reg : MetricsRegistry) (t : String)
    (ls : List (String × String)) (ds : List TransferData)
    (h : ∀ r ∈ reg, ¬(r.statType = t ∧ r.labels = ls)) :
    (reg.map fun r =>
      if r.statType = t ∧ r.labels = ls then
        { r with data := ds.foldl applyTransferData r.data }
      else r) = reg := by
  induction reg with
  | nil => rfl
  | cons r rs ihr =>
      simp only [List.map_cons]
      rw [if_neg (h r (by simp))]
      rw [ihr (fun r' hr' => h r' (by simp [hr']))]

theorem applyTransferStats_fresh (reg : MetricsRegistry) (m : MetricsStat)
    (hfresh : ∀ r ∈ reg, ¬(r.statType = m.statType ∧ r.labels = m.labels))
    (hkeys : (m.data.map Prod.fst).Nodup) :
    applyTransferStats reg ⟨m.statType, m.labels, m.data.map encodeMetric⟩ =
      reg ++ [m] := by
  unfold applyTransferStats
  have hany :
      (reg.any fun r => decide (r.statType = m.statType ∧ r.labels = m.labels)) =
        false := by
    rw [List.any_eq_false]
    intro r hr
    simp only [decide_eq_true_eq]
    exact hfresh r hr
  simp only [hany, Bool.false_eq_true, if_neg, not_false_iff, List.map_append]
  rw [map_keep_of_not_match reg m.statType m.labels (m.data.map encodeMetric) hfresh]
  simp only [List.map_cons, List.map_nil, and_self, if_true]
  rw [fold_rebuild m.data [] hkeys (by simp)]
  rfl

theorem read_makes (reg : MetricsRegistry) :
    ∀ acc : MetricsRegistry,
      ((reg.map fun m => (m.statType, m.labels)).Nodup) →
      (∀ m ∈ reg, (m.data.map Prod.fst).Nodup) →
      (∀ m ∈ reg, ∀ r ∈ acc, ¬(r.statType = m.statType ∧ r.labels = m.labels)) →
      (makesTransferData reg).foldl applyTransferStats acc = acc ++ reg := by
  induction reg with
  | nil =>
      intro acc _ _ _
      simp [makesTransferData]
  | cons hd tl ih =>
      intro acc hnd hkeys hdisj
      simp only [makesTransferData, List.map_cons, List.foldl_cons]
      rw [applyTransferStats_fresh acc hd
        (fun r hr => hdisj hd (by simp) r hr) (hkeys hd (by simp))]
      have hnd' : (tl.map fun m => (m.statType, m.labels)).Nodup := by
        simp only [List.map_cons, List.nodup_cons] at hnd
        exact hnd.2
      have hhd : (hd.statType, hd.labels) ∉ tl.map fun m => (m.statType, m.labels) := by
        simp only [List.map_cons, List.nodup_cons] at hnd
        exact hnd.1
      have := ih (acc ++ [hd]) hnd' (fun m hm => hkeys m (by simp [hm])) ?_
      · simp only [makesTransferData] at this
        rw [this]
        simp
      · intro m hm r hr
        rcases List.mem_append.mp hr with hmem | hmem
        · exact hdisj m (by simp [hm]) r hmem
        · rw [List.mem_singleton.mp hmem]
          rintro ⟨ht, hl⟩
          exact hhd (List.mem_map.mpr ⟨m, hm, by rw [ht, hl]⟩)

/-- C8: the metrics handoff round-trips: applying readTransferData to the
transfer records produced by makesTransferData, starting from an empty
receiving registry, recreates every instance with every counter at the same
count, every gauge at the same value, and every histogram with the same
sample values (counters are applied by Inc from zero, gauges by Update,
histogram samples by per-value Update). -/
theorem metrics_transfer_roundtrip (reg : MetricsRegistry)
    (hwf : registryWF reg) :
    readTransferData (makesTransferData reg) [] = reg := by
  obtain ⟨hids, hkeys⟩ := hwf
  unfold readTransferData
  rw [read_makes reg [] hids hkeys (by intro m hm r hr; cases hr)]
  rfl

/-- A concrete registry for the C8 witness. -/
def registryW : MetricsRegistry :=
  [⟨"host", [("cluster", "c1")],
      [("requests", .counter 3), ("load", .gauge 7), ("latency", .histogram [1, 2, 2])]⟩,
    ⟨"cluster", [("cluster", "c1")], [("requests", .counter 5)]⟩]

/-- Witness for C8: the round-trip at a concrete registry holding a
counter, a gauge and a histogram. -/
theorem metrics_transfer_roundtrip_witness :
    readTransferData (makesTransferData registryW) [] = registryW :=
  metrics_transfer_roundtrip registryW ⟨by decide, by decide⟩

end MetricsTransfer
